import Mathlib

/-!
Verification of the PDF batch extraction-and-aggregation pipeline
(Supabase edge function `process-pdfs`, the `files`-based iteration).

The development shallowly embeds the background-processing task of the
edge function: per-document PDF link extraction, URL query decoding into
an extracted record, batch aggregation with summary statistics, CSV
serialization, and the terminal job-status update.

JavaScript runtime primitives used by the source (parseFloat, new URL /
URLSearchParams, Array.prototype.join, string relational comparison,
truthiness) are modelled explicitly over `List Char` / `Rat` so that all
definitions are executable and kernel-reducible.  JS numbers are modelled
as exact rationals extended with NaN and signed infinities; this is exact
for the decimal literals the pipeline manipulates (double rounding is not
modelled, and no claim depends on it).
-/

namespace PdfPipeline

/-! ## Character-list string utilities (kernel-reducible) -/

/-- Splits a character list at every occurrence of `sep`, keeping empty
segments, like JavaScript `String.prototype.split` with a one-character
separator (`"".split(sep)` gives `[""]`, modelled by `[[]]`). -/
def splitOnCharAux (sep : Char) : List Char → List Char → List (List Char)
  | [], acc => [acc.reverse]
  | c :: rest, acc =>
    if c = sep then acc.reverse :: splitOnCharAux sep rest []
    else splitOnCharAux sep rest (c :: acc)

def splitOnChar (sep : Char) (l : List Char) : List (List Char) :=
  splitOnCharAux sep l []

/-- Joins segments with a one-character separator, like
`Array.prototype.join` applied to strings. -/
def joinSep (sep : Char) : List (List Char) → List Char
  | [] => []
  | [x] => x
  | x :: y :: rest => x ++ sep :: joinSep sep (y :: rest)

/-- Substring containment on character lists, modelling
`String.prototype.includes`. -/
def listContains : List Char → List Char → Bool
  | l, p =>
    p.isPrefixOf l ||
      match l with
      | [] => false
      | _ :: t => listContains t p

/-- `s.includes(pat)` from JavaScript. -/
def strContains (s pat : String) : Bool :=
  listContains s.data pat.data

/-! ## JS numbers: exact rationals extended with NaN and infinities -/

/-- A JavaScript number as produced and consumed by this pipeline:
either NaN, a signed infinity, or an exact rational value. -/
inductive JsNum where
  | nan : JsNum
  | inf (neg : Bool) : JsNum
  | num (q : Rat) : JsNum
  deriving DecidableEq, Repr

/-- Exact rational addition, phrased through `mkRat` so that the
kernel can evaluate it (`mkRat n d` is the normalized rational `n/d`,
hence this is ordinary `+` on `Rat`). -/
def ratAdd (a b : Rat) : Rat :=
  mkRat (a.num * (b.den : Int) + b.num * (a.den : Int)) (a.den * b.den)

/-- JS `+` on numbers: NaN is absorbing, opposite infinities give NaN. -/
def JsNum.add : JsNum → JsNum → JsNum
  | .nan, _ => .nan
  | _, .nan => .nan
  | .inf a, .inf b => if a = b then .inf a else .nan
  | .inf a, .num _ => .inf a
  | .num _, .inf b => .inf b
  | .num a, .num b => .num (ratAdd a b)

/-- JS division of a number by a (nonnegative integer) count:
`q / n = q.num / (q.den * n)`, with the JS `x / 0` special cases. -/
def JsNum.divNat (x : JsNum) (n : Nat) : JsNum :=
  match x with
  | .nan => .nan
  | .inf s => .inf s
  | .num q =>
    if n = 0 then (if q.num = 0 then .nan else .inf (decide (q.num < 0)))
    else .num (mkRat q.num (q.den * n))

/-- Sum of a list of JS numbers by left fold from `0`, as
`Array.prototype.reduce((s, x) => s + x, 0)` computes it. -/
def jsSum (l : List JsNum) : JsNum :=
  l.foldl JsNum.add (.num 0)

/-! ## parseFloat -/

def digitsToNat (l : List Char) : Nat :=
  l.foldl (fun n c => 10 * n + (c.toNat - 48)) 0

/-- The whitespace characters `parseFloat` skips (main ASCII set; exotic
Unicode spaces are not modelled, no input in scope contains them). -/
def jsWs (c : Char) : Bool :=
  c = ' ' || c = '\t' || c = '\n' || c = '\r' || c = '\x0b' || c = '\x0c'

/-- Body of `parseFloat` after whitespace and sign handling: longest
prefix `digits [. digits] [e/E [sign] digits]`, or the `Infinity`
literal; NaN when no digit is found.  An exponent marker without digits
is ignored, as in JS (`parseFloat("1e") = 1`). -/
def parseFloatBody (l : List Char) (neg : Bool) : JsNum :=
  if "Infinity".data.isPrefixOf l then .inf neg
  else
    let ip := l.takeWhile Char.isDigit
    let rest1 := l.dropWhile Char.isDigit
    let fp :=
      match rest1 with
      | '.' :: r => r.takeWhile Char.isDigit
      | _ => []
    let rest2 :=
      match rest1 with
      | '.' :: r => r.dropWhile Char.isDigit
      | _ => rest1
    if ip.isEmpty && fp.isEmpty then .nan
    else
      let mant : Nat := digitsToNat (ip ++ fp)
      let scale : Nat := fp.length
      let eneg : Bool :=
        match rest2 with
        | c :: r =>
          if c = 'e' || c = 'E' then
            match r with
            | '-' :: _ => true
            | _ => false
          else false
        | [] => false
      let emag : Nat :=
        match rest2 with
        | c :: r =>
          if c = 'e' || c = 'E' then
            match r with
            | '+' :: r2 => digitsToNat (r2.takeWhile Char.isDigit)
            | '-' :: r2 => digitsToNat (r2.takeWhile Char.isDigit)
            | _ => digitsToNat (r.takeWhile Char.isDigit)
          else 0
        | [] => 0
      let numerator : Nat := if eneg then mant else mant * 10 ^ emag
      let denominator : Nat :=
        if eneg then 10 ^ (scale + emag) else 10 ^ scale
      let magnitude : Rat := mkRat (numerator : Int) denominator
      .num (if neg then -magnitude else magnitude)

/-- JavaScript `parseFloat`, modelled exactly over rationals. -/
def jsParseFloat (s : String) : JsNum :=
  match s.data.dropWhile jsWs with
  | '+' :: rest => parseFloatBody rest false
  | '-' :: rest => parseFloatBody rest true
  | l => parseFloatBody l false

/-- JS `v || d` for an optional string `v` (undefined and the empty
string are falsy). -/
def jsOrStr (v : Option String) (d : String) : String :=
  match v with
  | some s => if s = "" then d else s
  | none => d

/-! ## URL and query-string model (`new URL`, `URLSearchParams`) -/

def isHexDig (c : Char) : Bool :=
  c.isDigit || ('a' ≤ c && c ≤ 'f') || ('A' ≤ c && c ≤ 'F')

def hexVal (c : Char) : Nat :=
  if c.isDigit then c.toNat - 48
  else if 'a' ≤ c && c ≤ 'f' then c.toNat - 87
  else c.toNat - 55

/-- Percent-decoding of one urlencoded component with `+` as space, as
`URLSearchParams` performs it.  Decoded bytes are mapped directly to
code points (exact for ASCII; multi-byte UTF-8 sequences are not
reassembled — no claim involves them).  An invalid percent escape is
copied literally and scanning resumes at the next character.  Fuel is
the input length; every step consumes at least one character. -/
def decodeCompAux : Nat → List Char → List Char
  | 0, _ => []
  | _ + 1, [] => []
  | fuel + 1, '+' :: rest => ' ' :: decodeCompAux fuel rest
  | fuel + 1, '%' :: a :: b :: rest =>
    if isHexDig a && isHexDig b then
      Char.ofNat (16 * hexVal a + hexVal b) :: decodeCompAux fuel rest
    else '%' :: decodeCompAux fuel (a :: b :: rest)
  | fuel + 1, c :: rest => c :: decodeCompAux fuel rest

def decodeComp (l : List Char) : List Char :=
  decodeCompAux l.length l

/-- `application/x-www-form-urlencoded` parsing of a query string (the
part after `?`): split on `&`, drop empty pieces, split each piece at
its first `=` (absent `=` gives an empty value), percent-decode names
and values. -/
def parseSearchParams (s : String) : List (String × String) :=
  (splitOnChar '&' s.data).filterMap fun piece =>
    match piece with
    | [] => none
    | _ =>
      let k := piece.takeWhile (· ≠ '=')
      let v :=
        match piece.dropWhile (· ≠ '=') with
        | [] => []
        | _ :: r => r
      some (String.mk (decodeComp k), String.mk (decodeComp v))

/-- The value of key `k` in `Object.fromEntries(url.searchParams)`:
the last pair with that key wins, absent key is `undefined` (`none`). -/
def getParam (q : List (String × String)) (k : String) : Option String :=
  match q with
  | [] => none
  | (k0, v0) :: rest =>
    match getParam rest k with
    | some v => some v
    | none => if k0 = k then some v0 else none

/-- WHATWG URL pre-processing: strip leading/trailing C0 controls and
spaces, remove all tabs and newlines. -/
def urlPreprocess (l : List Char) : List Char :=
  (((l.dropWhile (· ≤ ' ')).reverse.dropWhile (· ≤ ' ')).reverse).filter
    (fun c => !(c = '\t' || c = '\n' || c = '\r'))

/-- A URL string is accepted when it starts with a scheme: an ASCII
letter followed by letters, digits, `+`, `-` or `.`, then a colon.
(For special schemes the real parser imposes further host constraints;
no claim depends on those, and every string rejected here is rejected
by `new URL` as well.) -/
def validScheme (l : List Char) : Bool :=
  let pre := l.takeWhile (· ≠ ':')
  decide (pre.length < l.length) &&
    match pre with
    | [] => false
    | c :: rest =>
      c.isAlpha && rest.all (fun d => d.isAlphanum || d = '+' || d = '-' || d = '.')

def upToHash (l : List Char) : List Char := l.takeWhile (· ≠ '#')

def afterQuestion (l : List Char) : List Char :=
  match l.dropWhile (· ≠ '?') with
  | [] => []
  | _ :: rest => rest

/-- `new URL(s)`, reduced to the one observation the source makes of
it: the query component (`search` without the `?`).  `none` models the
`TypeError` thrown on an invalid URL (no scheme). -/
def jsParseURL (s : String) : Option String :=
  let l := urlPreprocess s.data
  if validScheme l then some (String.mk (afterQuestion (upToHash l))) else none

/-! ## Parsed PDF document model and LinkExtractor -/

/-- The `A` (action) dictionary of a link annot, reduced to the only
field the source reads: `action?.get('URI')?.value`. -/
structure PdfAction where
  uri : Option String
  deriving DecidableEq, Repr

/-- One annot object: `annot.get('Subtype')?.value` and `annot.get('A')`. -/
structure Annot where
  subtype : Option String
  action : Option PdfAction
  deriving DecidableEq, Repr

/-- One page: `page.node.lookup(page.node.get('Annots'), true)` is
either absent (`undefined`, the `!annotations` continue) or an array. -/
structure PdfPage where
  annots : Option (List Annot)
  deriving DecidableEq, Repr

/-- A parsed document as `pdf-lib` exposes it: ordered pages. -/
structure PdfDoc where
  pages : List PdfPage
  deriving DecidableEq, Repr

/-- The fixed comparator-service host substring the source tests with
`uri.includes(...)`. -/
def cnmcHost : String := "comparador.cnmc.gob.es"

/-- JS truthiness of a string (`""` is falsy). -/
def jsTruthyS (s : String) : Bool := !(s = "")

/-- The inner-loop body of the extraction loop, for one annot: a
qualifying URI when the subtype is `Link`, the action and URI exist,
and the URI is truthy and contains the host substring. -/
def annotQualUri (a : Annot) : Option String :=
  if a.subtype = some "Link" then
    match a.action.bind PdfAction.uri with
    | some uri => if jsTruthyS uri && strContains uri cnmcHost then some uri else none
    | none => none
  else none

/-- The `cnmcUrl` extraction loop: pages in order, annots in order
within a page, pages without an `Annots` entry skipped, first
qualifying URI wins (both loops `break`). -/
def extractCnmcUrl (doc : PdfDoc) : Option String :=
  doc.pages.findSome? fun page =>
    match page.annots with
    | none => none
    | some annots => annots.findSome? annotQualUri

/-! ## ExtractedRecord and the ParameterDecoder -/

/-- Metadata of one uploaded file, as produced by the upload phase
(`{ originalName, path, size }`). -/
structure FileInfo where
  originalName : String
  path : String
  size : Nat
  deriving DecidableEq, Repr

/-- The record object built from the query parameters, field for field
and in the insertion order of the source (which fixes the CSV column
order).  String-valued parameters are `Option String` because a
missing key is `undefined`. -/
structure ExtractedRecord where
  cnmc_url : String
  postal_code : Option String
  contracted_power_p1 : JsNum
  contracted_power_p2 : JsNum
  max_power_p1 : JsNum
  max_power_p2 : JsNum
  consumption_p1 : JsNum
  consumption_p2 : JsNum
  consumption_p3 : JsNum
  contract_start_date : Option String
  contract_end_date : Option String
  billing_start_date : Option String
  billing_end_date : Option String
  invoice_date : Option String
  power_cost : JsNum
  energy_cost : JsNum
  total_amount : JsNum
  additional_services_cost : JsNum
  other_costs_with_tax : JsNum
  other_costs_without_tax : JsNum
  discount : JsNum
  power_rate_p1 : JsNum
  power_rate_p2 : JsNum
  energy_rate_p1 : JsNum
  energy_rate_p2 : JsNum
  energy_rate_p3 : JsNum
  cups : Option String
  tariff_code : Option String
  marketer_code : Option String
  green_energy : Bool
  has_permanence : Bool
  filename : String
  filepath : String
  deriving DecidableEq, Repr

/-- `parseFloat(params.k || '0')`. -/
def numParam (q : List (String × String)) (k : String) : JsNum :=
  jsParseFloat (jsOrStr (getParam q k) "0")

/-- The record construction of the source (`return { cnmc_url: ..., ... }`),
given the already-parsed query pairs. -/
def buildRecord (cnmcUrl : String) (q : List (String × String))
    (fileInfo : FileInfo) : ExtractedRecord :=
  { cnmc_url := cnmcUrl
    postal_code := getParam q "cp"
    contracted_power_p1 := numParam q "pP1"
    contracted_power_p2 := numParam q "pP2"
    max_power_p1 := numParam q "pmaxP1"
    max_power_p2 := numParam q "pmaxP2"
    consumption_p1 := numParam q "caP1"
    consumption_p2 := numParam q "caP2"
    consumption_p3 := numParam q "caP3"
    contract_start_date := getParam q "iniA"
    contract_end_date := getParam q "finContrato"
    billing_start_date := getParam q "iniF"
    billing_end_date := getParam q "finF"
    invoice_date := getParam q "fFact"
    power_cost := numParam q "impPot"
    energy_cost := numParam q "impEner"
    total_amount := numParam q "imp"
    additional_services_cost := numParam q "impSA"
    other_costs_with_tax := numParam q "impOtrosConIE"
    other_costs_without_tax := numParam q "impOtrosSinIE"
    discount := numParam q "dto"
    power_rate_p1 := numParam q "prP1"
    power_rate_p2 := numParam q "prP2"
    energy_rate_p1 := numParam q "prE1"
    energy_rate_p2 := numParam q "prE2"
    energy_rate_p3 := numParam q "prE3"
    cups := getParam q "cups"
    tariff_code := getParam q "tc"
    marketer_code := getParam q "com"
    green_energy := getParam q "verde" = some "true"
    has_permanence := !(getParam q "finPen" = some "0000-00-00")
    filename := fileInfo.originalName
    filepath := fileInfo.path }

/-- The `TypeError` message `new URL` raises on an invalid URL. -/
def invalidUrlMsg : String := "Invalid URL"

/-- The parameter-decoding segment of the per-document processing:
`new URL(cnmcUrl)` (which can throw), `Object.fromEntries(url.searchParams)`,
then the record construction. -/
def parameterDecode (cnmcUrl : String) (fileInfo : FileInfo) :
    Except String ExtractedRecord :=
  match jsParseURL cnmcUrl with
  | none => .error invalidUrlMsg
  | some query => .ok (buildRecord cnmcUrl (parseSearchParams query) fileInfo)

/-! ## Per-document processing and the batch -/

/-- What the storage download plus `PDFDocument.load` delivered for one
document: the download produced no data, the bytes failed to parse, or
a parsed document.  These are the inputs of the per-document promise;
the storage and parser themselves are external collaborators. -/
inductive FetchResult where
  | fetchFailed : FetchResult
  | parseFailed : FetchResult
  | parsed (doc : PdfDoc) : FetchResult
  deriving DecidableEq, Repr

def downloadMsg (path : String) : String :=
  "Failed to download PDF: " ++ path

/-- The message of the error `PDFDocument.load` rejects with on
malformed bytes (its exact wording is irrelevant to every claim). -/
def parseFailMsg : String := "Failed to parse PDF document"

/-- One `processPromises` element: throw on a failed download or parse,
`return null` when no qualifying URI is found, otherwise decode the
parameters (where `new URL` may still throw) and return the record. -/
def processOne (fileInfo : FileInfo) (fr : FetchResult) :
    Except String (Option ExtractedRecord) :=
  match fr with
  | .fetchFailed => .error (downloadMsg fileInfo.path)
  | .parseFailed => .error parseFailMsg
  | .parsed doc =>
    match extractCnmcUrl doc with
    | none => .ok none
    | some cnmcUrl =>
      match parameterDecode cnmcUrl fileInfo with
      | .error e => .error e
      | .ok r => .ok (some r)

/-- `await Promise.all(processPromises)`: all values in input order, or
a rejection.  `Promise.all` rejects with whichever rejection settles
first; the model deterministically reports the first rejection in input
order (no claim depends on which message is chosen). -/
def collectOutcomes : List (FileInfo × FetchResult) →
    Except String (List (Option ExtractedRecord))
  | [] => .ok []
  | p :: rest =>
    match processOne p.1 p.2 with
    | .error e => .error e
    | .ok v =>
      match collectOutcomes rest with
      | .error e => .error e
      | .ok vs => .ok (v :: vs)

/-! ## Summary statistics -/

/-- JS truthiness of a possibly-undefined string. -/
def jsTruthyO : Option String → Bool
  | some s => !(s = "")
  | none => false

/-- Lexicographic order on character lists (JS compares strings code
unit by code unit; on the scalar values both orders agree for every
string in scope). -/
def charListLt : List Char → List Char → Bool
  | [], [] => false
  | [], _ :: _ => true
  | _ :: _, [] => false
  | a :: as, b :: bs => a < b || (a = b && charListLt as bs)

/-- JS `a < b` on strings. -/
def strLtB (x y : String) : Bool := charListLt x.data y.data

/-- JS `a < b` on possibly-undefined strings: lexicographic when both
are strings, false otherwise (the `undefined` side converts to NaN). -/
def jsLtO : Option String → Option String → Bool
  | some x, some y => strLtB x y
  | _, _ => false

/-- JS `a > b`, i.e. `b < a` after the same conversions. -/
def jsGtO (a b : Option String) : Bool := jsLtO b a

/-- The nested `date_range` object is flattened to two fields. -/
structure SummaryStats where
  total_files_processed : Nat
  total_consumption_p1 : JsNum
  total_amount : JsNum
  average_monthly_cost : JsNum
  date_range_start : Option String
  date_range_end : Option String
  deriving DecidableEq, Repr

/-- The `summaryStats` object computed over the successful results,
fold for fold as in the source (`reduce` with the stated initial
accumulators; the date folds start from the falsy `''`). -/
def summaryStats (results : List ExtractedRecord) : SummaryStats :=
  { total_files_processed := results.length
    total_consumption_p1 :=
      results.foldl (fun s r => JsNum.add s r.consumption_p1) (JsNum.num 0)
    total_amount :=
      results.foldl (fun s r => JsNum.add s r.total_amount) (JsNum.num 0)
    average_monthly_cost :=
      (results.foldl (fun s r => JsNum.add s r.total_amount)
        (JsNum.num 0)).divNat results.length
    date_range_start :=
      results.foldl
        (fun m r =>
          if !(jsTruthyO m) || jsLtO r.billing_start_date m then
            r.billing_start_date
          else m)
        (some "")
    date_range_end :=
      results.foldl
        (fun m r =>
          if !(jsTruthyO m) || jsGtO r.billing_end_date m then
            r.billing_end_date
          else m)
        (some "") }

/-! ## CSV serialization (ReportWriter) -/

/-- The values of one record, in the insertion-order field
sequence of the record, together with their JS runtime type, as `Object.values`
yields them. -/
inductive JsVal where
  | vstr (s : String) : JsVal
  | vundefined : JsVal
  | vnum (n : JsNum) : JsVal
  | vbool (b : Bool) : JsVal
  deriving DecidableEq, Repr

def optStrVal : Option String → JsVal
  | some s => .vstr s
  | none => .vundefined

/-- `Object.keys(record)` — the fixed insertion order of the record
literal in the source. -/
def fieldNames : List String :=
  ["cnmc_url", "postal_code", "contracted_power_p1", "contracted_power_p2",
   "max_power_p1", "max_power_p2", "consumption_p1", "consumption_p2",
   "consumption_p3", "contract_start_date", "contract_end_date",
   "billing_start_date", "billing_end_date", "invoice_date", "power_cost",
   "energy_cost", "total_amount", "additional_services_cost",
   "other_costs_with_tax", "other_costs_without_tax", "discount",
   "power_rate_p1", "power_rate_p2", "energy_rate_p1", "energy_rate_p2",
   "energy_rate_p3", "cups", "tariff_code", "marketer_code", "green_energy",
   "has_permanence", "filename", "filepath"]

/-- `Object.values(record)`, matching `fieldNames` position by position. -/
def recordValues (r : ExtractedRecord) : List JsVal :=
  [.vstr r.cnmc_url, optStrVal r.postal_code, .vnum r.contracted_power_p1,
   .vnum r.contracted_power_p2, .vnum r.max_power_p1, .vnum r.max_power_p2,
   .vnum r.consumption_p1, .vnum r.consumption_p2, .vnum r.consumption_p3,
   optStrVal r.contract_start_date, optStrVal r.contract_end_date,
   optStrVal r.billing_start_date, optStrVal r.billing_end_date,
   optStrVal r.invoice_date, .vnum r.power_cost, .vnum r.energy_cost,
   .vnum r.total_amount, .vnum r.additional_services_cost,
   .vnum r.other_costs_with_tax, .vnum r.other_costs_without_tax,
   .vnum r.discount, .vnum r.power_rate_p1, .vnum r.power_rate_p2,
   .vnum r.energy_rate_p1, .vnum r.energy_rate_p2, .vnum r.energy_rate_p3,
   optStrVal r.cups, optStrVal r.tariff_code, optStrVal r.marketer_code,
   .vbool r.green_energy, .vbool r.has_permanence, .vstr r.filename,
   .vstr r.filepath]

def digitChar (n : Nat) : Char := Char.ofNat (48 + n % 10)

/-- Decimal digits of a natural number (fuel-based so the kernel can
reduce it; fuel `n + 1` always suffices). -/
def natDigitsAux : Nat → Nat → List Char
  | 0, _ => []
  | fuel + 1, n =>
    if n < 10 then [digitChar n]
    else natDigitsAux fuel (n / 10) ++ [digitChar (n % 10)]

def natToChars (n : Nat) : List Char := natDigitsAux (n + 1) n

/-- Fractional decimal digits of `n / d` with `n < d`, by repeated
multiplication by ten, stopping when the remainder is exhausted
(truncated at the fuel bound; every number this pipeline manipulates
has a finite decimal expansion). -/
def fracDigitsAux (d : Nat) : Nat → Nat → List Char
  | 0, _ => []
  | fuel + 1, n =>
    if n = 0 then []
    else digitChar ((n * 10) / d) :: fracDigitsAux d fuel ((n * 10) % d)

/-- JS number-to-string for a nonnegative rational with a finite
decimal expansion (the only numeric values the pipeline renders;
exponent notation for extreme magnitudes is not modelled). -/
def ratToCharsNonneg (q : Rat) : List Char :=
  let n := q.num.toNat
  let ip := n / q.den
  let fr := n % q.den
  if fr = 0 then natToChars ip
  else natToChars ip ++ '.' :: fracDigitsAux q.den 400 fr

/-- The string `Array.prototype.join` produces for one JS value:
quoted for strings (the template literal adds one double quote on each
side, no escaping), empty for `undefined`, `true`/`false` for
booleans, decimal rendering for numbers. -/
def renderVal (v : JsVal) : List Char :=
  match v with
  | .vstr s => Char.ofNat 34 :: s.data ++ [Char.ofNat 34]
  | .vundefined => []
  | .vbool true => "true".data
  | .vbool false => "false".data
  | .vnum .nan => "NaN".data
  | .vnum (.inf false) => "Infinity".data
  | .vnum (.inf true) => "-Infinity".data
  | .vnum (.num q) =>
    if q.num < 0 then '-' :: ratToCharsNonneg (-q) else ratToCharsNonneg q

/-- `Object.keys(results[0]).join(',')` (every record has the same
keys, so the keys of the first record are the fixed field order). -/
def csvHeaderChars : List Char :=
  joinSep ',' (fieldNames.map String.data)

/-- One data row: `Object.values(row).map(render).join(',')`. -/
def csvRowChars (r : ExtractedRecord) : List Char :=
  joinSep ',' ((recordValues r).map renderVal)

/-- `[csvHeader, ...csvRows].join('\n')` — the full artifact text. -/
def csvContent (results : List ExtractedRecord) : String :=
  String.mk (joinSep '\n' (csvHeaderChars :: results.map csvRowChars))

/-! ## Terminal job update (BatchCoordinator + JobStateMachine) -/

inductive JobStatus where
  | processing : JobStatus
  | completed : JobStatus
  | error : JobStatus
  deriving DecidableEq, Repr

/-- The fields the background task writes to the `pdf_analysis` row at
its end.  A field the update does not mention is `none`. -/
structure JobUpdate where
  status : JobStatus
  output_file : Option String
  summary_stats : Option SummaryStats
  error : Option String
  deriving DecidableEq, Repr

def noValidDataMsg : String := "No valid data could be extracted from the PDFs"

/-- The whole background task over the per-document fetch/parse
outcomes: collect the promises, drop the `null`s (`filter(Boolean)`),
fail the batch when nothing remains, otherwise compute the statistics
and the CSV and complete.  The upload of the artifact to the `outputs`
bucket is an external collaborator and modelled as succeeding; any
thrown error lands in the `catch` that writes the `error` status with
the message of that error. -/
def processBatch (analysisId : String)
    (inputs : List (FileInfo × FetchResult)) : JobUpdate :=
  match collectOutcomes inputs with
  | .error msg =>
    { status := .error, output_file := none, summary_stats := none,
      error := some msg }
  | .ok outcomes =>
    let results := outcomes.filterMap id
    if results.length = 0 then
      { status := .error, output_file := none, summary_stats := none,
        error := some noValidDataMsg }
    else
      { status := .completed,
        output_file := some (analysisId ++ "/analysis_results.csv"),
        summary_stats := some (summaryStats results),
        error := none }

/-! ## Spec-side definitions

These follow the words of the specification, to be compared with the
definitions translated from the source. -/

/-- Spec side, LinkExtractor: a qualifying URI of one annot is a URI
whose annot subtype is link and whose target string contains the fixed
recognized-host substring. -/
def specQualUri (a : Annot) : Option String :=
  match a.action.bind PdfAction.uri with
  | some uri =>
    if a.subtype = some "Link" && strContains uri cnmcHost then some uri
    else none
  | none => none

/-- Spec side: all qualifying URIs of a document, in page order then
annot order (pages without annots contribute nothing). -/
def qualUris (doc : PdfDoc) : List String :=
  (doc.pages.map fun p => (p.annots.getD []).filterMap specQualUri).flatten

/-- Spec side: lexicographic minimum of a list of strings (`none` for
the empty list). -/
def lexMinStr : List String → Option String
  | [] => none
  | s :: rest => some (rest.foldl (fun a b => if strLtB b a then b else a) s)

/-- Spec side: lexicographic maximum of a list of strings. -/
def lexMaxStr : List String → Option String
  | [] => none
  | s :: rest => some (rest.foldl (fun a b => if strLtB a b then b else a) s)

/-- The query-string keys of the numeric fields, in record field order. -/
def numericKeys : List String :=
  ["pP1", "pP2", "pmaxP1", "pmaxP2", "caP1", "caP2", "caP3", "impPot",
   "impEner", "imp", "impSA", "impOtrosConIE", "impOtrosSinIE", "dto",
   "prP1", "prP2", "prE1", "prE2", "prE3"]

/-- The numeric field of a record that a given query key populates
(`JsNum.nan` for a key that is not numeric, never reached under
`k ∈ numericKeys`). -/
def numericField (r : ExtractedRecord) (k : String) : JsNum :=
  if k = "pP1" then r.contracted_power_p1
  else if k = "pP2" then r.contracted_power_p2
  else if k = "pmaxP1" then r.max_power_p1
  else if k = "pmaxP2" then r.max_power_p2
  else if k = "caP1" then r.consumption_p1
  else if k = "caP2" then r.consumption_p2
  else if k = "caP3" then r.consumption_p3
  else if k = "impPot" then r.power_cost
  else if k = "impEner" then r.energy_cost
  else if k = "imp" then r.total_amount
  else if k = "impSA" then r.additional_services_cost
  else if k = "impOtrosConIE" then r.other_costs_with_tax
  else if k = "impOtrosSinIE" then r.other_costs_without_tax
  else if k = "dto" then r.discount
  else if k = "prP1" then r.power_rate_p1
  else if k = "prP2" then r.power_rate_p2
  else if k = "prE1" then r.energy_rate_p1
  else if k = "prE2" then r.energy_rate_p2
  else if k = "prE3" then r.energy_rate_p3
  else .nan

/-- All query keys the decoder reads. -/
def recognizedKeys : List String :=
  numericKeys ++
    ["cp", "iniA", "finContrato", "iniF", "finF", "fFact", "cups", "tc",
     "com", "verde", "finPen"]

/-- Spec side: the record populated entirely from defaults — numeric
fields `0.0`, string fields absent, green energy false, permanence
true (the sentinel is absent). -/
def defaultRecord (cnmcUrl : String) (fileInfo : FileInfo) : ExtractedRecord :=
  { cnmc_url := cnmcUrl
    postal_code := none
    contracted_power_p1 := .num 0, contracted_power_p2 := .num 0
    max_power_p1 := .num 0, max_power_p2 := .num 0
    consumption_p1 := .num 0, consumption_p2 := .num 0
    consumption_p3 := .num 0
    contract_start_date := none, contract_end_date := none
    billing_start_date := none, billing_end_date := none
    invoice_date := none
    power_cost := .num 0, energy_cost := .num 0, total_amount := .num 0
    additional_services_cost := .num 0
    other_costs_with_tax := .num 0, other_costs_without_tax := .num 0
    discount := .num 0
    power_rate_p1 := .num 0, power_rate_p2 := .num 0
    energy_rate_p1 := .num 0, energy_rate_p2 := .num 0
    energy_rate_p3 := .num 0
    cups := none, tariff_code := none, marketer_code := none
    green_energy := false
    has_permanence := true
    filename := fileInfo.originalName
    filepath := fileInfo.path }

/-- Spec side, per-document outcome classification: the document
yielded a record. -/
def isRecordOutcome (o : Except String (Option ExtractedRecord)) : Bool :=
  match o with
  | .ok (some _) => true
  | _ => false

/-- Spec side: the document yielded a processing failure — either it
was excluded for want of a qualifying link (`null`) or its promise
rejected. -/
def isFailOutcome (o : Except String (Option ExtractedRecord)) : Bool :=
  match o with
  | .ok none => true
  | .error _ => true
  | .ok (some _) => false

/-- Spec side: parsing the tabular artifact back — rows on newlines,
cells on commas. -/
def parseCsv (s : String) : List (List String) :=
  (splitOnChar '\n' s.data).map fun line =>
    (splitOnChar ',' line).map String.mk

/-- The string values occurring among the CSV cells of a record. -/
def recordStrings (r : ExtractedRecord) : List String :=
  (recordValues r).filterMap fun v =>
    match v with
    | .vstr s => some s
    | _ => none

/-- Spec side: the records the per-document stage yields across a
batch, irrespective of whether the batch-level `Promise.all` later
discards them because a sibling promise rejected. -/
def producedRecords (inputs : List (FileInfo × FetchResult)) :
    List ExtractedRecord :=
  inputs.filterMap fun p =>
    match processOne p.1 p.2 with
    | .ok (some r) => some r
    | _ => none

/-! ## Helper lemmas -/

theorem strContains_empty_left (pat : String) (h : pat ≠ "") :
    strContains "" pat = false := by
  unfold strContains listContains
  cases hp : pat.data with
  | nil => exact absurd (congrArg String.mk hp) h
  | cons c cs => simp [List.isPrefixOf]

theorem annotQualUri_eq_specQualUri (a : Annot) :
    annotQualUri a = specQualUri a := by
  unfold annotQualUri specQualUri
  cases hu : a.action.bind PdfAction.uri with
  | none => cases h : a.subtype <;> simp [h]
  | some uri =>
    by_cases hs : a.subtype = some "Link"
    · simp only [hs, if_pos rfl, decide_True, Bool.true_and]
      by_cases he : uri = ""
      · subst he
        simp [jsTruthyS, strContains_empty_left cnmcHost (by decide)]
      · simp [jsTruthyS, he]
    · simp [hs]

theorem findSome?_eq_head?_filterMap {α β : Type} (f : α → Option β) :
    ∀ l : List α, l.findSome? f = (l.filterMap f).head? := by
  intro l
  induction l with
  | nil => rfl
  | cons a t ih =>
    rw [List.findSome?_cons, List.filterMap_cons]
    cases f a with
    | none => exact ih
    | some b => rfl

theorem extractCnmcUrl_eq_first_qual (doc : PdfDoc) :
    extractCnmcUrl doc = (qualUris doc).head? := by
  unfold extractCnmcUrl qualUris
  induction doc.pages with
  | nil => rfl
  | cons p ps ih =>
    rw [List.findSome?_cons, List.map_cons, List.flatten_cons,
      List.head?_append, ← ih]
    have hp : (match p.annots with
        | none => none
        | some annots => annots.findSome? annotQualUri) =
        ((p.annots.getD []).filterMap specQualUri).head? := by
      cases h : p.annots with
      | none => rfl
      | some annots =>
        simp only [Option.getD_some]
        rw [findSome?_eq_head?_filterMap]
        congr 1
        exact List.filterMap_congr fun a _ => annotQualUri_eq_specQualUri a
    rw [hp]
    cases ((p.annots.getD []).filterMap specQualUri).head? <;> simp [Option.or]

theorem isFailOutcome_eq_not_isRecordOutcome
    (o : Except String (Option ExtractedRecord)) :
    isFailOutcome o = !isRecordOutcome o := by
  rcases o with e | v
  · rfl
  · rcases v with _ | r <;> rfl

theorem countP_add_countP_not {α : Type} (p : α → Bool) (l : List α) :
    l.countP p + l.countP (fun a => !p a) = l.length := by
  induction l with
  | nil => rfl
  | cons a t ih =>
    rw [List.countP_cons, List.countP_cons, List.length_cons]
    cases h : p a <;> simp [h] <;> omega

end PdfPipeline

namespace PdfPipeline

/-! ## Claims -/

/-- C4: for every parsed document, the extraction loop returns exactly
the first qualifying URI — in page order then annot order, subtype
`Link`, URI containing the comparator-service host substring — and
`none` (not an error) when no page or annot matches; pages without
annots and annots without a URI action contribute nothing and fail
nothing (they are simply absent from `qualUris`). -/
theorem claim_C4 (doc : PdfDoc) :
    extractCnmcUrl doc = (qualUris doc).head? :=
  extractCnmcUrl_eq_first_qual doc

/-- C2: every input document yields exactly one outcome, which is a
record or a failure (excluded-as-null or rejected promise) and never
both, so the record count plus the failure count equals the input
count. -/
theorem claim_C2 (inputs : List (FileInfo × FetchResult)) :
    ((inputs.map fun p => processOne p.1 p.2).all fun o =>
       isFailOutcome o == !isRecordOutcome o) = true ∧
    (inputs.map fun p => processOne p.1 p.2).countP isRecordOutcome +
      (inputs.map fun p => processOne p.1 p.2).countP isFailOutcome =
      inputs.length := by
  constructor
  · rw [List.all_eq_true]
    intro o _
    rw [isFailOutcome_eq_not_isRecordOutcome o]
    exact beq_self_eq_true _
  · have h : (inputs.map fun p => processOne p.1 p.2).countP isFailOutcome =
        (inputs.map fun p => processOne p.1 p.2).countP
          (fun o => !isRecordOutcome o) :=
      List.countP_congr fun o _ => by
        rw [isFailOutcome_eq_not_isRecordOutcome o]
    rw [h, countP_add_countP_not, List.length_map]

/-- C7: the green-energy flag of a decoded record is true exactly when
the value of the `verde` parameter is the literal string `true`, and the
has-permanence flag is true exactly when the value of the `finPen`
parameter is not the sentinel literal `0000-00-00` (an absent key included). -/
theorem claim_C7 (url : String) (q : List (String × String)) (f : FileInfo) :
    ((buildRecord url q f).green_energy = true ↔
      getParam q "verde" = some "true") ∧
    ((buildRecord url q f).has_permanence = true ↔
      ¬(getParam q "finPen" = some "0000-00-00")) := by
  constructor
  · simp [buildRecord]
  · simp [buildRecord]

/-- C10: a decoded record whose query string has no `finPen` key at all
reports that permanence applies: the absent value is unequal to the
sentinel, so the flag is true. -/
theorem claim_C10 (url : String) (q : List (String × String)) (f : FileInfo)
    (h : getParam q "finPen" = none) :
    (buildRecord url q f).has_permanence = true := by
  simp [buildRecord, h]

/-- C10 witness: a concrete query string without `finPen` decodes with
the permanence flag set. -/
theorem claim_C10_witness :
    getParam (parseSearchParams "caP1=5&verde=true") "finPen" = none ∧
    (buildRecord "https://comparador.cnmc.gob.es/?caP1=5&verde=true"
        (parseSearchParams "caP1=5&verde=true")
        ⟨"a.pdf", "p/a.pdf", 0⟩).has_permanence = true :=
  ⟨by decide,
   claim_C10 "https://comparador.cnmc.gob.es/?caP1=5&verde=true"
     (parseSearchParams "caP1=5&verde=true") ⟨"a.pdf", "p/a.pdf", 0⟩
     (by decide)⟩

theorem jsParseFloat_zero_lit : jsParseFloat "0" = .num 0 := by decide

theorem numParam_missing (q : List (String × String)) (k : String)
    (h : getParam q k = none) : numParam q k = .num 0 := by
  rw [numParam, h]
  exact jsParseFloat_zero_lit

theorem numParam_empty (q : List (String × String)) (k : String)
    (h : getParam q k = some "") : numParam q k = .num 0 := by
  rw [numParam, h]
  exact jsParseFloat_zero_lit

theorem numParam_present (q : List (String × String)) (k s : String)
    (h : getParam q k = some s) (hs : s ≠ "") :
    numParam q k = jsParseFloat s := by
  rw [numParam, h]
  simp [jsOrStr, hs]

/-- C5 counterexample: the `caP1` key is present with the value `abc`,
which fails to parse as a decimal, yet the decoded consumption field is
NaN — not `0.0` as the claim states (`parseFloat(v || '0')` defaults
only a missing or empty value; a present unparseable value reaches
`parseFloat` and yields NaN). -/
theorem claim_C5_cex :
    getParam (parseSearchParams "caP1=abc") "caP1" = some "abc" ∧
    (buildRecord "https://comparador.cnmc.gob.es/?caP1=abc"
        (parseSearchParams "caP1=abc")
        ⟨"a.pdf", "p/a.pdf", 0⟩).consumption_p1 = JsNum.nan ∧
    JsNum.nan ≠ JsNum.num 0 := by
  refine ⟨by decide, by decide, by decide⟩

/-- C5 as amended: a numeric field is `0.0` exactly when its key is
missing or its value is the empty string; a present non-empty value is
handed to `parseFloat` unchanged, so an unparseable one gives NaN
rather than `0.0`.  In all cases the record itself is produced
(`numericField` maps each numeric key to its record field). -/
theorem claim_C5 (url : String) (q : List (String × String)) (f : FileInfo)
    (k : String) (hk : k ∈ numericKeys) :
    numericField (buildRecord url q f) k = numParam q k ∧
    ((getParam q k = none ∨ getParam q k = some "") →
      numericField (buildRecord url q f) k = .num 0) ∧
    (∀ s, getParam q k = some s → s ≠ "" →
      numericField (buildRecord url q f) k = jsParseFloat s) := by
  have h1 : numericField (buildRecord url q f) k = numParam q k := by
    fin_cases hk <;> rfl
  refine ⟨h1, fun h => ?_, fun s hs hne => ?_⟩
  · rw [h1]
    rcases h with h | h
    · exact numParam_missing q k h
    · exact numParam_empty q k h
  · rw [h1]
    exact numParam_present q k s hs hne

/-- C5 witness: `caP1` missing from a concrete query gives consumption
`0.0`, and present-and-empty gives `0.0` as well. -/
theorem claim_C5_witness :
    ("caP1" ∈ numericKeys ∧
      getParam (parseSearchParams "imp=50") "caP1" = none ∧
      numericField
        (buildRecord "u" (parseSearchParams "imp=50") ⟨"a.pdf", "p", 0⟩)
        "caP1" = JsNum.num 0) ∧
    (getParam (parseSearchParams "caP1=") "caP1" = some "" ∧
      numericField
        (buildRecord "u" (parseSearchParams "caP1=") ⟨"a.pdf", "p", 0⟩)
        "caP1" = JsNum.num 0) :=
  ⟨⟨by decide, by decide,
    (claim_C5 "u" (parseSearchParams "imp=50") ⟨"a.pdf", "p", 0⟩ "caP1"
        (by decide)).2.1 (Or.inl (by decide))⟩,
   ⟨by decide,
    (claim_C5 "u" (parseSearchParams "caP1=") ⟨"a.pdf", "p", 0⟩ "caP1"
        (by decide)).2.1 (Or.inr (by decide))⟩⟩

theorem buildRecord_default (url : String) (q : List (String × String))
    (f : FileInfo) (h : ∀ k ∈ recognizedKeys, getParam q k = none) :
    buildRecord url q f = defaultRecord url f := by
  have hn : ∀ k ∈ numericKeys, numParam q k = .num 0 := fun k hk =>
    numParam_missing q k (h k (List.mem_append_left _ hk))
  have hs : ∀ k ∈ recognizedKeys, getParam q k = none := h
  rw [buildRecord, defaultRecord]
  rw [hn "pP1" (by decide), hn "pP2" (by decide), hn "pmaxP1" (by decide),
    hn "pmaxP2" (by decide), hn "caP1" (by decide), hn "caP2" (by decide),
    hn "caP3" (by decide), hn "impPot" (by decide), hn "impEner" (by decide),
    hn "imp" (by decide), hn "impSA" (by decide),
    hn "impOtrosConIE" (by decide), hn "impOtrosSinIE" (by decide),
    hn "dto" (by decide), hn "prP1" (by decide), hn "prP2" (by decide),
    hn "prE1" (by decide), hn "prE2" (by decide), hn "prE3" (by decide),
    hs "cp" (by decide), hs "iniA" (by decide), hs "finContrato" (by decide),
    hs "iniF" (by decide), hs "finF" (by decide), hs "fFact" (by decide),
    hs "cups" (by decide), hs "tc" (by decide), hs "com" (by decide),
    hs "verde" (by decide), hs "finPen" (by decide)]
  rfl

/-- C6 counterexample: a URI that contains the comparator host (so it
is exactly what LinkExtractor hands over) but lacks a scheme makes
`new URL` throw a TypeError, so the decoder raises instead of
returning a default-populated record. -/
theorem claim_C6_cex :
    strContains "comparador.cnmc.gob.es?caP1=1" cnmcHost = true ∧
    parameterDecode "comparador.cnmc.gob.es?caP1=1" ⟨"a.pdf", "p/a.pdf", 0⟩ =
      .error invalidUrlMsg := by
  refine ⟨by decide, rfl⟩

/-- C6 as amended: for every URI that `new URL` accepts, the decoder
is total — it returns a record and never raises; in particular a URI
whose query string yields none of the recognized keys (malformed or
absent query) produces the record populated entirely from defaults.
A URI `new URL` rejects (no scheme) raises a TypeError that escapes
the decoder as a per-document processing error. -/
theorem claim_C6 (uri : String) (f : FileInfo) (query : String)
    (h : jsParseURL uri = some query) :
    parameterDecode uri f =
      .ok (buildRecord uri (parseSearchParams query) f) ∧
    ((∀ k ∈ recognizedKeys, getParam (parseSearchParams query) k = none) →
      parameterDecode uri f = .ok (defaultRecord uri f)) := by
  have h1 : parameterDecode uri f =
      .ok (buildRecord uri (parseSearchParams query) f) := by
    rw [parameterDecode, h]
  refine ⟨h1, fun hall => ?_⟩
  rw [h1, buildRecord_default uri (parseSearchParams query) f hall]

/-- C6 witness: a well-formed URL whose query string is the garbage
`%%%` decodes, without an error, to the all-defaults record. -/
theorem claim_C6_witness :
    jsParseURL "https://comparador.cnmc.gob.es/x?%%%" = some "%%%" ∧
    parameterDecode "https://comparador.cnmc.gob.es/x?%%%"
        ⟨"a.pdf", "p/a.pdf", 0⟩ =
      .ok (defaultRecord "https://comparador.cnmc.gob.es/x?%%%"
        ⟨"a.pdf", "p/a.pdf", 0⟩) :=
  ⟨by decide,
   (claim_C6 "https://comparador.cnmc.gob.es/x?%%%" ⟨"a.pdf", "p/a.pdf", 0⟩
       "%%%" (by decide)).2 (by decide)⟩

theorem collectOutcomes_error_of_mem (inputs : List (FileInfo × FetchResult))
    (p : FileInfo × FetchResult) (hp : p ∈ inputs) (e : String)
    (he : processOne p.1 p.2 = .error e) :
    ∃ e2, collectOutcomes inputs = .error e2 := by
  induction inputs with
  | nil => cases hp
  | cons q rest ih =>
    rw [collectOutcomes]
    rcases List.mem_cons.mp hp with rfl | hmem
    · rw [he]
      exact ⟨e, rfl⟩
    · cases hq : processOne q.1 q.2 with
      | error e1 => exact ⟨e1, rfl⟩
      | ok v =>
        obtain ⟨e2, h2⟩ := ih hmem
        rw [h2]
        exact ⟨e2, rfl⟩

/-- C3 counterexample: a batch containing one good document and one
whose storage download fails.  The fetch failure — a document-scoped
error per the claim — is not recovered into a ProcessingFailure: it
rejects its promise, `Promise.all` rejects, and the batch catch writes
the terminal `error` state with the download message, which is not the
batch-scoped no-valid-data reason; the record of the other document is
discarded. -/
theorem claim_C3_cex :
    (producedRecords
        [(⟨"a.pdf", "p/a.pdf", 0⟩, .parsed
            ⟨[⟨some [⟨some "Link",
                some ⟨some "https://comparador.cnmc.gob.es/?imp=50"⟩⟩]⟩]⟩),
         (⟨"b.pdf", "p/b.pdf", 0⟩, .fetchFailed)]).length = 1 ∧
    (processBatch "a1"
        [(⟨"a.pdf", "p/a.pdf", 0⟩, .parsed
            ⟨[⟨some [⟨some "Link",
                some ⟨some "https://comparador.cnmc.gob.es/?imp=50"⟩⟩]⟩]⟩),
         (⟨"b.pdf", "p/b.pdf", 0⟩, .fetchFailed)]).status = .error ∧
    (processBatch "a1"
        [(⟨"a.pdf", "p/a.pdf", 0⟩, .parsed
            ⟨[⟨some [⟨some "Link",
                some ⟨some "https://comparador.cnmc.gob.es/?imp=50"⟩⟩]⟩]⟩),
         (⟨"b.pdf", "p/b.pdf", 0⟩, .fetchFailed)]).error =
      some (downloadMsg "p/b.pdf") ∧
    downloadMsg "p/b.pdf" ≠ noValidDataMsg := by
  refine ⟨by decide, by decide, by decide, by decide⟩

/-- C3 as amended: only `NoQualifyingLinkError` is recovered locally —
a parsed document without a qualifying link yields `null` and is
excluded without failing anything.  A document fetch failure or a
`DocumentParseError` (and a URL-construction TypeError) instead
rejects the promise of that document, and any such rejection aborts the
whole batch: the job reaches the terminal `error` state with that
message of that document rather than a batch-scoped reason. -/
theorem claim_C3 :
    (∀ (f : FileInfo) (doc : PdfDoc), extractCnmcUrl doc = none →
      processOne f (.parsed doc) = .ok none) ∧
    (∀ f : FileInfo, processOne f .fetchFailed =
      .error (downloadMsg f.path)) ∧
    (∀ f : FileInfo, processOne f .parseFailed = .error parseFailMsg) ∧
    (∀ (aid : String) (inputs : List (FileInfo × FetchResult))
        (p : FileInfo × FetchResult) (e : String), p ∈ inputs →
      processOne p.1 p.2 = .error e →
      (processBatch aid inputs).status = .error) := by
  refine ⟨fun f doc h => ?_, fun f => rfl, fun f => rfl,
    fun aid inputs p e hp he => ?_⟩
  · rw [processOne, h]
  · obtain ⟨e2, h2⟩ := collectOutcomes_error_of_mem inputs p hp e he
    rw [processBatch, h2]

/-- C3 witness: the no-link arm on a concrete document with no
qualifying URI, and the propagation arm on a concrete batch with a
failed download. -/
theorem claim_C3_witness :
    processOne ⟨"c.pdf", "p/c.pdf", 0⟩ (.parsed ⟨[⟨none⟩, ⟨some []⟩]⟩) =
      .ok none ∧
    (processBatch "a2" [(⟨"c.pdf", "p/c.pdf", 0⟩, .fetchFailed)]).status =
      .error :=
  ⟨claim_C3.1 ⟨"c.pdf", "p/c.pdf", 0⟩ ⟨[⟨none⟩, ⟨some []⟩]⟩ (by decide),
   claim_C3.2.2.2 "a2" [(⟨"c.pdf", "p/c.pdf", 0⟩, .fetchFailed)]
     (⟨"c.pdf", "p/c.pdf", 0⟩, .fetchFailed) (downloadMsg "p/c.pdf")
     (by decide) rfl⟩

/-- C1 counterexample: a batch whose per-document stage produces one
ExtractedRecord, yet whose job lands in the terminal `error` state,
because the download failure of a sibling document rejects `Promise.all`
before the aggregation step runs.  The second half of the claim (at least
one record implies `completed` with artifact and stats, even when some
documents failed) is false on this input, and the error reason is the
download message, not a NoValidDataError-class string. -/
theorem claim_C1_cex :
    (producedRecords
        [(⟨"d.pdf", "p/d.pdf", 0⟩, .parsed
            ⟨[⟨some [⟨some "Link",
                some ⟨some "https://comparador.cnmc.gob.es/?imp=50&caP1=100"⟩⟩]⟩]⟩),
         (⟨"e.pdf", "p/e.pdf", 0⟩, .fetchFailed)]).length = 1 ∧
    (processBatch "b1"
        [(⟨"d.pdf", "p/d.pdf", 0⟩, .parsed
            ⟨[⟨some [⟨some "Link",
                some ⟨some "https://comparador.cnmc.gob.es/?imp=50&caP1=100"⟩⟩]⟩]⟩),
         (⟨"e.pdf", "p/e.pdf", 0⟩, .fetchFailed)]).status ≠ .completed ∧
    (processBatch "b1"
        [(⟨"d.pdf", "p/d.pdf", 0⟩, .parsed
            ⟨[⟨some [⟨some "Link",
                some ⟨some "https://comparador.cnmc.gob.es/?imp=50&caP1=100"⟩⟩]⟩]⟩),
         (⟨"e.pdf", "p/e.pdf", 0⟩, .fetchFailed)]).error ≠
      some noValidDataMsg := by
  refine ⟨by decide, by decide, by decide⟩

/-- C1 as amended: for every batch in which no promise of a document
rejects (downloads, parses and URL constructions all succeed), the
aggregation policy of the claim holds — zero ExtractedRecords puts the
job in the terminal `error` state with the NoValidDataError-class
message, and at least one record puts it in `completed` with the
artifact path and the SummaryStats over the successes attached, even
when some documents yielded no qualifying link.  (When a promise does
reject, the whole batch errors with the message of that document instead;
see C3.) -/
theorem claim_C1 (aid : String) (inputs : List (FileInfo × FetchResult))
    (outs : List (Option ExtractedRecord))
    (h : collectOutcomes inputs = .ok outs) :
    ((outs.filterMap id).length = 0 →
      processBatch aid inputs =
        ⟨.error, none, none, some noValidDataMsg⟩) ∧
    (0 < (outs.filterMap id).length →
      processBatch aid inputs =
        ⟨.completed, some (aid ++ "/analysis_results.csv"),
         some (summaryStats (outs.filterMap id)), none⟩) := by
  constructor
  · intro hz
    simp only [processBatch, h, hz, if_pos]
  · intro hpos
    have hne : (outs.filterMap id).length ≠ 0 := Nat.pos_iff_ne_zero.mp hpos
    simp only [processBatch, h, if_neg hne]

/-- C1 witness: a concrete batch of one document with a qualifying
link and one parsed document without any link completes with the
artifact reference and statistics attached; a concrete batch whose
only document has no qualifying link errors with the
NoValidDataError-class message. -/
theorem claim_C1_witness :
    collectOutcomes
        [(⟨"d.pdf", "p/d.pdf", 0⟩, .parsed
            ⟨[⟨some [⟨some "Link",
                some ⟨some "https://comparador.cnmc.gob.es/?imp=50&caP1=100"⟩⟩]⟩]⟩),
         (⟨"e.pdf", "p/e.pdf", 0⟩, .parsed ⟨[⟨none⟩]⟩)] =
      .ok [some (buildRecord "https://comparador.cnmc.gob.es/?imp=50&caP1=100"
              (parseSearchParams "imp=50&caP1=100") ⟨"d.pdf", "p/d.pdf", 0⟩),
           none] ∧
    (processBatch "b2"
        [(⟨"d.pdf", "p/d.pdf", 0⟩, .parsed
            ⟨[⟨some [⟨some "Link",
                some ⟨some "https://comparador.cnmc.gob.es/?imp=50&caP1=100"⟩⟩]⟩]⟩),
         (⟨"e.pdf", "p/e.pdf", 0⟩, .parsed ⟨[⟨none⟩]⟩)]).status =
      .completed ∧
    processBatch "b3" [(⟨"e.pdf", "p/e.pdf", 0⟩, .parsed ⟨[⟨none⟩]⟩)] =
      ⟨.error, none, none, some noValidDataMsg⟩ := by
  refine ⟨rfl, ?_, ?_⟩
  · have h := (claim_C1 "b2"
      [(⟨"d.pdf", "p/d.pdf", 0⟩, .parsed
          ⟨[⟨some [⟨some "Link",
              some ⟨some "https://comparador.cnmc.gob.es/?imp=50&caP1=100"⟩⟩]⟩]⟩),
       (⟨"e.pdf", "p/e.pdf", 0⟩, .parsed ⟨[⟨none⟩]⟩)]
      [some (buildRecord "https://comparador.cnmc.gob.es/?imp=50&caP1=100"
         (parseSearchParams "imp=50&caP1=100") ⟨"d.pdf", "p/d.pdf", 0⟩),
       none] rfl).2 (by decide)
    rw [h]
  · exact (claim_C1 "b3" [(⟨"e.pdf", "p/e.pdf", 0⟩, .parsed ⟨[⟨none⟩]⟩)]
      [none] rfl).1 (by decide)

theorem optMinFold (ds : List (Option String)) (a : String) (ha : a ≠ "")
    (h : ∀ o ∈ ds, jsTruthyO o = true) :
    ds.foldl (fun m d => if !(jsTruthyO m) || jsLtO d m then d else m)
        (some a) =
      some ((ds.filterMap id).foldl
        (fun x y => if strLtB y x then y else x) a) := by
  induction ds generalizing a with
  | nil => rfl
  | cons d rest ih =>
    cases d with
    | none => exact absurd (h none (List.mem_cons_self _ _)) (by simp [jsTruthyO])
    | some s =>
      have hs : s ≠ "" := by
        have := h (some s) (List.mem_cons_self _ _)
        simpa [jsTruthyO] using this
      have hrest : ∀ o ∈ rest, jsTruthyO o = true := fun o ho =>
        h o (List.mem_cons_of_mem _ ho)
      rw [List.foldl_cons, List.filterMap_cons]
      have hstep : (if !(jsTruthyO (some a)) || jsLtO (some s) (some a)
          then some s else some a) =
          if strLtB s a then some s else some a := by
        simp [jsTruthyO, jsLtO, ha]
      rw [hstep]
      by_cases hlt : strLtB s a = true
      · rw [if_pos hlt]
        simp only [Option.some.injEq, id]
        rw [ih s hs hrest]
        simp only [List.foldl_cons, if_pos hlt]
      · rw [if_neg hlt]
        simp only [Option.some.injEq, id]
        rw [ih a ha hrest]
        simp only [List.foldl_cons, if_neg hlt]

theorem optMaxFold (ds : List (Option String)) (a : String) (ha : a ≠ "")
    (h : ∀ o ∈ ds, jsTruthyO o = true) :
    ds.foldl (fun m d => if !(jsTruthyO m) || jsGtO d m then d else m)
        (some a) =
      some ((ds.filterMap id).foldl
        (fun x y => if strLtB x y then y else x) a) := by
  induction ds generalizing a with
  | nil => rfl
  | cons d rest ih =>
    cases d with
    | none => exact absurd (h none (List.mem_cons_self _ _)) (by simp [jsTruthyO])
    | some s =>
      have hs : s ≠ "" := by
        have := h (some s) (List.mem_cons_self _ _)
        simpa [jsTruthyO] using this
      have hrest : ∀ o ∈ rest, jsTruthyO o = true := fun o ho =>
        h o (List.mem_cons_of_mem _ ho)
      rw [List.foldl_cons, List.filterMap_cons]
      have hstep : (if !(jsTruthyO (some a)) || jsGtO (some s) (some a)
          then some s else some a) =
          if strLtB a s then some s else some a := by
        simp [jsTruthyO, jsLtO, jsGtO, ha]
      rw [hstep]
      by_cases hlt : strLtB a s = true
      · rw [if_pos hlt]
        simp only [Option.some.injEq, id]
        rw [ih s hs hrest]
        simp only [List.foldl_cons, if_pos hlt]
      · rw [if_neg hlt]
        simp only [Option.some.injEq, id]
        rw [ih a ha hrest]
        simp only [List.foldl_cons, if_neg hlt]

/-- C8 counterexample: two records whose billing-start dates are the
empty string and `2023-05-01`.  The lexicographic minimum is the empty
string, but the `reduce` in the source restarts whenever its
accumulator is falsy — so the empty-string date is overwritten and the
computed `date_range.start` is `2023-05-01`, not the minimum the claim
states. -/
theorem claim_C8_cex :
    (summaryStats
        [buildRecord "u" (parseSearchParams "iniF=&imp=1") ⟨"a", "p", 0⟩,
         buildRecord "u" (parseSearchParams "iniF=2023-05-01&imp=2")
           ⟨"b", "p", 0⟩]).date_range_start = some "2023-05-01" ∧
    lexMinStr
        (([buildRecord "u" (parseSearchParams "iniF=&imp=1") ⟨"a", "p", 0⟩,
           buildRecord "u" (parseSearchParams "iniF=2023-05-01&imp=2")
             ⟨"b", "p", 0⟩]).filterMap ExtractedRecord.billing_start_date) =
      some "" ∧
    some "2023-05-01" ≠ (some "" : Option String) := by
  refine ⟨by decide, by decide, by decide⟩

/-- C8 as amended: over every non-empty result set, the summary counts
the records, sums `consumption_p1` and `total_amount` by the same
left fold, and takes the average as that sum divided by the count; the
`date_range` equals the lexicographic minimum of `billing_start_date`
and maximum of `billing_end_date` provided the billing
dates of every record are present and non-empty (a falsy date restarts the fold and
breaks minimality, see the counterexample).  The summary is computed
over the successful records only and not at all on the error path. -/
theorem claim_C8 (rs : List ExtractedRecord) (hne : rs ≠ []) :
    (summaryStats rs).total_files_processed = rs.length ∧
    (summaryStats rs).total_consumption_p1 =
      jsSum (rs.map (fun r => r.consumption_p1)) ∧
    (summaryStats rs).total_amount =
      jsSum (rs.map (fun r => r.total_amount)) ∧
    (summaryStats rs).average_monthly_cost =
      (jsSum (rs.map (fun r => r.total_amount))).divNat rs.length ∧
    ((∀ r ∈ rs, jsTruthyO r.billing_start_date = true) →
      (summaryStats rs).date_range_start =
        lexMinStr (rs.filterMap ExtractedRecord.billing_start_date)) ∧
    ((∀ r ∈ rs, jsTruthyO r.billing_end_date = true) →
      (summaryStats rs).date_range_end =
        lexMaxStr (rs.filterMap ExtractedRecord.billing_end_date)) ∧
    (∀ (aid : String) (inputs : List (FileInfo × FetchResult)),
      (processBatch aid inputs).status = .error →
      (processBatch aid inputs).summary_stats = none) := by
  refine ⟨rfl, ?_, ?_, ?_, ?_, ?_, ?_⟩
  · rw [jsSum, List.foldl_map]
    rfl
  · rw [jsSum, List.foldl_map]
    rfl
  · rw [jsSum, List.foldl_map]
    rfl
  · intro h
    rcases rs with _ | ⟨r0, rest⟩
    · exact absurd rfl hne
    · obtain ⟨s0, hs0, hs0ne⟩ : ∃ s, r0.billing_start_date = some s ∧ s ≠ "" := by
        have := h r0 (List.mem_cons_self _ _)
        cases hb : r0.billing_start_date with
        | none => rw [hb] at this; simp [jsTruthyO] at this
        | some s =>
          rw [hb] at this
          exact ⟨s, rfl, by simpa [jsTruthyO] using this⟩
      have hrest : ∀ o ∈ rest.map (fun r => r.billing_start_date),
          jsTruthyO o = true := by
        intro o ho
        obtain ⟨r, hr, rfl⟩ := List.mem_map.mp ho
        exact h r (List.mem_cons_of_mem _ hr)
      show (r0 :: rest).foldl
          (fun m r => if !(jsTruthyO m) || jsLtO r.billing_start_date m
            then r.billing_start_date else m) (some "") = _
      rw [List.foldl_cons]
      have hfirst : (if !(jsTruthyO (some "")) ||
          jsLtO r0.billing_start_date (some "")
          then r0.billing_start_date else some "") = some s0 := by
        simp [jsTruthyO, hs0]
      rw [hfirst]
      have hmap : rest.foldl
          (fun m r => if !(jsTruthyO m) || jsLtO r.billing_start_date m
            then r.billing_start_date else m) (some s0) =
          (rest.map (fun r => r.billing_start_date)).foldl
            (fun m d => if !(jsTruthyO m) || jsLtO d m then d else m)
            (some s0) := by
        rw [List.foldl_map]
      rw [hmap, optMinFold _ s0 hs0ne hrest]
      rw [List.filterMap_cons, hs0]
      have : (rest.map fun r => r.billing_start_date).filterMap id =
          rest.filterMap ExtractedRecord.billing_start_date := by
        rw [List.filterMap_map]
        rfl
      rw [this]
      rfl
  · intro h
    rcases rs with _ | ⟨r0, rest⟩
    · exact absurd rfl hne
    · obtain ⟨s0, hs0, hs0ne⟩ : ∃ s, r0.billing_end_date = some s ∧ s ≠ "" := by
        have := h r0 (List.mem_cons_self _ _)
        cases hb : r0.billing_end_date with
        | none => rw [hb] at this; simp [jsTruthyO] at this
        | some s =>
          rw [hb] at this
          exact ⟨s, rfl, by simpa [jsTruthyO] using this⟩
      have hrest : ∀ o ∈ rest.map (fun r => r.billing_end_date),
          jsTruthyO o = true := by
        intro o ho
        obtain ⟨r, hr, rfl⟩ := List.mem_map.mp ho
        exact h r (List.mem_cons_of_mem _ hr)
      show (r0 :: rest).foldl
          (fun m r => if !(jsTruthyO m) || jsGtO r.billing_end_date m
            then r.billing_end_date else m) (some "") = _
      rw [List.foldl_cons]
      have hfirst : (if !(jsTruthyO (some "")) ||
          jsGtO r0.billing_end_date (some "")
          then r0.billing_end_date else some "") = some s0 := by
        simp [jsTruthyO, hs0]
      rw [hfirst]
      have hmap : rest.foldl
          (fun m r => if !(jsTruthyO m) || jsGtO r.billing_end_date m
            then r.billing_end_date else m) (some s0) =
          (rest.map (fun r => r.billing_end_date)).foldl
            (fun m d => if !(jsTruthyO m) || jsGtO d m then d else m)
            (some s0) := by
        rw [List.foldl_map]
      rw [hmap, optMaxFold _ s0 hs0ne hrest]
      rw [List.filterMap_cons, hs0]
      have : (rest.map fun r => r.billing_end_date).filterMap id =
          rest.filterMap ExtractedRecord.billing_end_date := by
        rw [List.filterMap_map]
        rfl
      rw [this]
      rfl
  · intro aid inputs hst
    cases hc : collectOutcomes inputs with
    | error e => simp [processBatch, hc]
    | ok outs =>
      by_cases hz : (outs.filterMap id).length = 0
      · simp [processBatch, hc, hz]
      · exfalso
        simp [processBatch, hc, hz] at hst

/-- C8 witness: a concrete two-record result set with well-formed
dates — the summary equals the claimed count, sums, average and
lexicographic date range. -/
theorem claim_C8_witness :
    (summaryStats
        [buildRecord "u" (parseSearchParams "imp=50&caP1=100&iniF=2023-01-01&finF=2023-02-01")
           ⟨"a", "p", 0⟩,
         buildRecord "u" (parseSearchParams "imp=30&caP1=10&iniF=2022-12-01&finF=2023-01-05")
           ⟨"b", "p", 0⟩]).average_monthly_cost =
      (jsSum
        (([buildRecord "u" (parseSearchParams "imp=50&caP1=100&iniF=2023-01-01&finF=2023-02-01")
             ⟨"a", "p", 0⟩,
           buildRecord "u" (parseSearchParams "imp=30&caP1=10&iniF=2022-12-01&finF=2023-01-05")
             ⟨"b", "p", 0⟩]).map (fun r => r.total_amount))).divNat 2 ∧
    (summaryStats
        [buildRecord "u" (parseSearchParams "imp=50&caP1=100&iniF=2023-01-01&finF=2023-02-01")
           ⟨"a", "p", 0⟩,
         buildRecord "u" (parseSearchParams "imp=30&caP1=10&iniF=2022-12-01&finF=2023-01-05")
           ⟨"b", "p", 0⟩]).date_range_start =
      lexMinStr
        (([buildRecord "u" (parseSearchParams "imp=50&caP1=100&iniF=2023-01-01&finF=2023-02-01")
             ⟨"a", "p", 0⟩,
           buildRecord "u" (parseSearchParams "imp=30&caP1=10&iniF=2022-12-01&finF=2023-01-05")
             ⟨"b", "p", 0⟩]).filterMap ExtractedRecord.billing_start_date) :=
  ⟨(claim_C8 _ (by decide)).2.2.2.1,
   (claim_C8 _ (by decide)).2.2.2.2.1 (by decide)⟩

theorem splitOnCharAux_no_sep (sep : Char) (l : List Char) :
    ∀ acc : List Char, sep ∉ l →
    splitOnCharAux sep l acc = [acc.reverse ++ l] := by
  induction l with
  | nil => intro acc _; simp [splitOnCharAux]
  | cons c t ih =>
    intro acc h
    have hc : ¬(c = sep) := fun he => h (he ▸ List.mem_cons_self _ _)
    have ht : sep ∉ t := fun hm => h (List.mem_cons_of_mem _ hm)
    rw [splitOnCharAux, if_neg hc, ih (c :: acc) ht]
    simp

theorem splitOnCharAux_sep_block (sep : Char) (x : List Char) :
    ∀ (t acc : List Char), sep ∉ x →
    splitOnCharAux sep (x ++ sep :: t) acc =
      (acc.reverse ++ x) :: splitOnCharAux sep t [] := by
  induction x with
  | nil =>
    intro t acc _
    rw [List.nil_append, splitOnCharAux, if_pos rfl]
    simp
  | cons c xs ih =>
    intro t acc h
    have hc : ¬(c = sep) := fun he => h (he ▸ List.mem_cons_self _ _)
    have hxs : sep ∉ xs := fun hm => h (List.mem_cons_of_mem _ hm)
    rw [List.cons_append, splitOnCharAux, if_neg hc, ih t (c :: acc) hxs]
    simp

theorem splitOnChar_joinSep (sep : Char) :
    ∀ parts : List (List Char), parts ≠ [] → (∀ p ∈ parts, sep ∉ p) →
    splitOnChar sep (joinSep sep parts) = parts := by
  intro parts
  induction parts with
  | nil => intro h; exact absurd rfl h
  | cons x rest ih =>
    intro _ h
    cases rest with
    | nil =>
      rw [joinSep, splitOnChar,
        splitOnCharAux_no_sep sep x [] (h x (List.mem_cons_self _ _))]
      rfl
    | cons y rest2 =>
      rw [joinSep, splitOnChar,
        splitOnCharAux_sep_block sep x (joinSep sep (y :: rest2)) []
          (h x (List.mem_cons_self _ _))]
      have hrest : ∀ p ∈ y :: rest2, sep ∉ p := fun p hp =>
        h p (List.mem_cons_of_mem _ hp)
      have hih := ih (by simp) hrest
      rw [splitOnChar] at hih
      rw [hih]
      rfl

theorem mem_joinSep (sep : Char) :
    ∀ (parts : List (List Char)) (c : Char), c ∈ joinSep sep parts →
    c = sep ∨ ∃ p ∈ parts, c ∈ p := by
  intro parts
  induction parts with
  | nil => intro c hc; cases hc
  | cons x rest ih =>
    intro c hc
    cases rest with
    | nil =>
      rw [joinSep] at hc
      exact Or.inr ⟨x, List.mem_cons_self _ _, hc⟩
    | cons y rest2 =>
      rw [joinSep] at hc
      rcases List.mem_append.mp hc with hx | hs
      · exact Or.inr ⟨x, List.mem_cons_self _ _, hx⟩
      · rcases List.mem_cons.mp hs with rfl | hj
        · exact Or.inl rfl
        · rcases ih c hj with h1 | ⟨p, hp, hcp⟩
          · exact Or.inl h1
          · exact Or.inr ⟨p, List.mem_cons_of_mem _ hp, hcp⟩

theorem digitChar_ok (n : Nat) : digitChar n ≠ '\n' ∧ digitChar n ≠ ',' := by
  have h : n % 10 < 10 := Nat.mod_lt _ (by omega)
  rw [digitChar]
  set m := n % 10 with hm
  interval_cases m <;> exact ⟨by decide, by decide⟩

theorem natDigitsAux_ok :
    ∀ (fuel n : Nat) (c : Char), c ∈ natDigitsAux fuel n →
    c ≠ '\n' ∧ c ≠ ',' := by
  intro fuel
  induction fuel with
  | zero => intro n c hc; cases hc
  | succ fu ih =>
    intro n c hc
    rw [natDigitsAux] at hc
    by_cases hn : n < 10
    · rw [if_pos hn] at hc
      rcases List.mem_singleton.mp hc with rfl
      exact digitChar_ok n
    · rw [if_neg hn] at hc
      rcases List.mem_append.mp hc with h1 | h2
      · exact ih (n / 10) c h1
      · rcases List.mem_singleton.mp h2 with rfl
        exact digitChar_ok (n % 10)

theorem fracDigitsAux_ok :
    ∀ (d fuel n : Nat) (c : Char), c ∈ fracDigitsAux d fuel n →
    c ≠ '\n' ∧ c ≠ ',' := by
  intro d fuel
  induction fuel with
  | zero => intro n c hc; cases hc
  | succ fu ih =>
    intro n c hc
    rw [fracDigitsAux] at hc
    by_cases hn : n = 0
    · rw [if_pos hn] at hc; cases hc
    · rw [if_neg hn] at hc
      rcases List.mem_cons.mp hc with rfl | h2
      · exact digitChar_ok _
      · exact ih _ c h2

theorem ratToCharsNonneg_ok (q : Rat) (c : Char)
    (hc : c ∈ ratToCharsNonneg q) : c ≠ '\n' ∧ c ≠ ',' := by
  rw [ratToCharsNonneg] at hc
  by_cases hz : q.num.toNat % q.den = 0
  · rw [if_pos hz] at hc
    exact natDigitsAux_ok _ _ c hc
  · rw [if_neg hz] at hc
    rcases List.mem_append.mp hc with h1 | h2
    · exact natDigitsAux_ok _ _ c h1
    · rcases List.mem_cons.mp h2 with rfl | h3
      · exact ⟨by decide, by decide⟩
      · exact fracDigitsAux_ok _ _ _ c h3

theorem renderVal_ok (v : JsVal)
    (hv : ∀ s, v = .vstr s → ∀ c ∈ s.data, c ≠ '\n' ∧ c ≠ ',') :
    ∀ c ∈ renderVal v, c ≠ '\n' ∧ c ≠ ',' := by
  intro c hc
  cases v with
  | vstr s =>
    rw [renderVal] at hc
    rcases List.mem_cons.mp hc with rfl | h2
    · exact ⟨by decide, by decide⟩
    · rcases List.mem_append.mp h2 with h3 | h4
      · exact hv s rfl c h3
      · rcases List.mem_singleton.mp h4 with rfl
        exact ⟨by decide, by decide⟩
  | vundefined => cases hc
  | vbool b =>
    cases b with
    | true =>
      rw [renderVal] at hc
      exact (by decide : ∀ x ∈ "true".data, x ≠ '\n' ∧ x ≠ ',') c hc
    | false =>
      rw [renderVal] at hc
      exact (by decide : ∀ x ∈ "false".data, x ≠ '\n' ∧ x ≠ ',') c hc
  | vnum n =>
    cases n with
    | nan =>
      rw [renderVal] at hc
      exact (by decide : ∀ x ∈ "NaN".data, x ≠ '\n' ∧ x ≠ ',') c hc
    | inf s =>
      cases s with
      | false =>
        rw [renderVal] at hc
        exact (by decide : ∀ x ∈ "Infinity".data, x ≠ '\n' ∧ x ≠ ',') c hc
      | true =>
        rw [renderVal] at hc
        exact (by decide : ∀ x ∈ "-Infinity".data, x ≠ '\n' ∧ x ≠ ',') c hc
    | num q =>
      rw [renderVal] at hc
      by_cases hneg : q.num < 0
      · rw [if_pos hneg] at hc
        rcases List.mem_cons.mp hc with rfl | h2
        · exact ⟨by decide, by decide⟩
        · exact ratToCharsNonneg_ok _ c h2
      · rw [if_neg hneg] at hc
        exact ratToCharsNonneg_ok _ c hc

theorem cell_ok (r : ExtractedRecord)
    (hstr : ∀ s ∈ recordStrings r, ∀ c ∈ s.data, c ≠ '\n' ∧ c ≠ ',')
    (v : JsVal) (hv : v ∈ recordValues r) :
    ∀ c ∈ renderVal v, c ≠ '\n' ∧ c ≠ ',' := by
  refine renderVal_ok v fun s hs c hc => ?_
  refine hstr s ?_ c hc
  rw [recordStrings]
  exact List.mem_filterMap.mpr ⟨v, hv, by rw [hs]⟩

theorem csvRow_no_nl (r : ExtractedRecord)
    (hstr : ∀ s ∈ recordStrings r, ∀ c ∈ s.data, c ≠ '\n' ∧ c ≠ ',') :
    '\n' ∉ csvRowChars r := by
  intro hmem
  rw [csvRowChars] at hmem
  rcases mem_joinSep ',' _ '\n' hmem with h1 | ⟨p, hp, hcp⟩
  · exact absurd h1 (by decide)
  · obtain ⟨v, hv, rfl⟩ := List.mem_map.mp hp
    exact (cell_ok r hstr v hv '\n' hcp).1 rfl

theorem csvRow_parse (r : ExtractedRecord)
    (hstr : ∀ s ∈ recordStrings r, ∀ c ∈ s.data, c ≠ '\n' ∧ c ≠ ',') :
    (splitOnChar ',' (csvRowChars r)).map String.mk =
      (recordValues r).map fun v => String.mk (renderVal v) := by
  rw [csvRowChars, splitOnChar_joinSep ',' ((recordValues r).map renderVal)
    (by rw [recordValues]; simp)
    (fun p hp hmem => by
      obtain ⟨v, hv, rfl⟩ := List.mem_map.mp hp
      exact (cell_ok r hstr v hv ',' hmem).2 rfl)]
  rw [List.map_map]
  rfl

set_option maxRecDepth 4000 in
theorem csvHeader_no_nl : '\n' ∉ csvHeaderChars := by decide

set_option maxRecDepth 4000 in
theorem csvHeader_parse :
    (splitOnChar ',' csvHeaderChars).map String.mk = fieldNames := by
  rw [csvHeaderChars, splitOnChar_joinSep ',' (fieldNames.map String.data)
    (by decide) (by decide), List.map_map]
  have : (String.mk ∘ String.data) = id := by
    funext s
    cases s
    rfl
  rw [this, List.map_id]

/-- C9 counterexample: a single record whose filename contains a
newline (the upload step strips only non-ASCII characters, so a
newline survives into the metadata).  The CSV quoting performs no
escaping, so parsing the artifact back yields three rows — not one
header row plus one row for the single record — and the round trip of
the claim fails. -/
theorem claim_C9_cex :
    (parseCsv (csvContent
        [buildRecord "https://x/?imp=50" (parseSearchParams "imp=50")
          ⟨"a\nb.pdf", "p/a.pdf", 0⟩])).length = 3 ∧
    (1 : Nat) + 1 ≠ 3 := by
  refine ⟨?_, by decide⟩
  set_option maxRecDepth 100000 in decide

/-- C9 as amended: for every non-empty result list whose string-valued
cells contain no newline and no comma, the artifact parses back to
exactly the header — the fixed field-name order — followed by one row
per record; each row holds the values of that record in the same fixed order
(string values double-quoted by the renderer), and every row has
exactly as many cells as the header.  With an embedded newline or
comma in a string field the round trip fails, as the unescaped quoting
cannot protect the delimiter (see the counterexample). -/
theorem claim_C9 (rs : List ExtractedRecord) (_hne : rs ≠ [])
    (hstr : ∀ r ∈ rs, ∀ s ∈ recordStrings r, ∀ c ∈ s.data,
      c ≠ '\n' ∧ c ≠ ',') :
    parseCsv (csvContent rs) =
      fieldNames :: rs.map (fun r =>
        (recordValues r).map fun v => String.mk (renderVal v)) ∧
    ∀ r ∈ rs, ((recordValues r).map renderVal).length =
      fieldNames.length := by
  constructor
  · have hlines : splitOnChar '\n'
        (joinSep '\n' (csvHeaderChars :: rs.map csvRowChars)) =
        csvHeaderChars :: rs.map csvRowChars := by
      refine splitOnChar_joinSep '\n' _ (by simp) fun p hp => ?_
      rcases List.mem_cons.mp hp with rfl | hrow
      · exact csvHeader_no_nl
      · obtain ⟨r, hr, rfl⟩ := List.mem_map.mp hrow
        exact csvRow_no_nl r (hstr r hr)
    show (splitOnChar '\n'
        (joinSep '\n' (csvHeaderChars :: rs.map csvRowChars))).map _ = _
    rw [hlines, List.map_cons, csvHeader_parse, List.map_map]
    congr 1
    exact List.map_congr_left fun r hr => csvRow_parse r (hstr r hr)
  · intro r _
    rw [List.length_map, recordValues, fieldNames]
    rfl

/-- C9 witness: a concrete single-record batch with clean string
fields round-trips to the header row plus exactly one data row. -/
theorem claim_C9_witness :
    parseCsv (csvContent
        [buildRecord "https://comparador.cnmc.gob.es/?imp=50"
          (parseSearchParams "imp=50") ⟨"a.pdf", "p/a.pdf", 0⟩]) =
      fieldNames ::
        [buildRecord "https://comparador.cnmc.gob.es/?imp=50"
          (parseSearchParams "imp=50") ⟨"a.pdf", "p/a.pdf", 0⟩].map
          (fun r => (recordValues r).map fun v => String.mk (renderVal v)) :=
  (claim_C9
    [buildRecord "https://comparador.cnmc.gob.es/?imp=50"
      (parseSearchParams "imp=50") ⟨"a.pdf", "p/a.pdf", 0⟩]
    (by simp) (by decide)).1

end PdfPipeline
